import Mathlib

/-!
Shallow embedding of the projection core of `data_utils.py`
(`generate_future_projections` and `generate_future_projections_from_point`).

Modelling conventions:
* A price point is a pair of a timestamp (minutes since an arbitrary epoch,
  as `Int`; the `strptime`/`strftime` round trip of the source is an injective
  formatting concern and is abstracted to the instant itself) and a closing
  price (`Rat`; Python floats are modelled as exact rationals, every claim
  here is about index/offset arithmetic, not rounding).
* `get_stock_data` is network I/O; both projection functions are embedded as
  functions of the already-fetched `stock_data` list, with the source's
  empty-fetch guard kept.
* Python's `re.finditer` on a metacharacter-free pattern (the patterns here
  consist only of the letters `U`/`D`) reports leftmost, non-overlapping
  occurrences, advancing by the match length (by one for an empty pattern).
  `findIter` reproduces exactly that scan; its fuel `s.length + 1` bounds the
  number of scan positions, so the fuel-exhausted branch is never reached.
* Python `dict` preserves insertion order, and the match positions produced
  by the scan are strictly increasing, so `index_dict`'s key list is just the
  (filtered) match list in scan order.
-/

structure PricePoint where
  date : Int
  close : Rat
deriving DecidableEq

inductive ProjLabel where
  | matchDate : Int → ProjLabel
  | fromPoint : Nat → Nat → ProjLabel
deriving DecidableEq

structure Projection where
  label : ProjLabel
  data : List PricePoint
  patternLength : Option Nat
deriving DecidableEq

def dfltPoint : PricePoint := ⟨0, 0⟩

def dfltProj : Projection := ⟨ProjLabel.matchDate 0, [], none⟩

/-- The up/down movement comprehension shared by both source functions:
`'U' if closes[i+1] >= closes[i] else 'D'`, one symbol per consecutive pair. -/
def movementString (closes : List Rat) : List Char :=
  (List.range (closes.length - 1)).map
    (fun i => if closes.getD i 0 ≤ closes.getD (i + 1) 0 then 'U' else 'D')

/-- `pat` occurs in `s` starting at position `i` (plain substring test). -/
def occursAt (pat s : List Char) (i : Nat) : Bool :=
  (s.drop i).take pat.length == pat

/-- Number of (possibly overlapping) occurrence positions of `pat` in `s`. -/
def occCount (pat s : List Char) : Nat :=
  ((List.range (s.length + 1)).filter (fun i => occursAt pat s i)).length

/-- One scan step of `re.finditer`: at position `p`, if the pattern still
fits, report an occurrence and jump past it (by one for an empty pattern),
otherwise advance by one. -/
def findIterAux (pat s : List Char) : Nat → Nat → List Nat
  | _, 0 => []
  | p, fuel + 1 =>
    if p + pat.length ≤ s.length then
      if occursAt pat s p then
        p :: findIterAux pat s (p + max pat.length 1) fuel
      else
        findIterAux pat s (p + 1) fuel
    else []

/-- `[match.start() for match in re.finditer(pat, s)]`. -/
def findIter (pat s : List Char) : List Nat :=
  findIterAux pat s 0 (s.length + 1)

/-- Number of replay iterations that pass the in-bounds guard
(`src + i + 1 < n` for `i` in `range(future_points)`). -/
def numSteps (n src future_points : Nat) : Nat :=
  min future_points (n - (src + 1))

/-- `(stock_data[j]["close"] - stock_data[j+1]["close"]) / stock_data[j+1]["close"]`. -/
def stepRatio (closes : List Rat) (j : Nat) : Rat :=
  (closes.getD j 0 - closes.getD (j + 1) 0) / closes.getD (j + 1) 0

/-- The replayed tail of `future_prices`: starting from the running price `p`
and source index `src`, append `m` compounded prices. -/
def replayFrom (closes : List Rat) : Nat → Rat → Nat → List Rat
  | _, _, 0 => []
  | src, p, m + 1 =>
    (p * (1 + stepRatio closes src)) ::
      replayFrom closes (src + 1) (p * (1 + stepRatio closes src)) m

/-- The `future_prices` list built by the replay loop: the anchor price
followed by one compounded price per in-bounds iteration, reading the source
ratios at `src, src+1, ...`. -/
def future_prices (closes : List Rat) (src : Nat) (anchor : Rat)
    (future_points : Nat) : List Rat :=
  anchor :: replayFrom closes src anchor (numSteps closes.length src future_points)

/-- `m` timestamps advancing from `d` by the constant `step`. -/
def constStep : Int → Int → Nat → List Int
  | _, _, 0 => []
  | d, step, m + 1 => (d + step) :: constStep (d + step) step m

/-- The per-step timestamp increment (in minutes) used by
`generate_future_projections`: one hour for `interval == 60`, one day for
`interval == 1440`, otherwise `interval` minutes. -/
def gfpStep (interval : Int) : Int :=
  if interval = 60 then 60 else if interval = 1440 then 1440 else interval

/-- The `future_dates` list of `generate_future_projections`: the anchor
timestamp followed by `m` steps of `gfpStep interval`. -/
def gfp_future_dates (anchor interval : Int) (m : Nat) : List Int :=
  anchor :: constStep anchor (gfpStep interval) m

/-- The first projected timestamp of `generate_future_projections_from_point`
(the `i == 0` branch): the actual timestamp of the next historical point
after `start_idx` when it exists, otherwise the last observed spacing,
otherwise 60 minutes. -/
def fpFirstDate (sd : List PricePoint) (start_idx : Nat) (anchor : Int) : Int :=
  if start_idx + 1 < sd.length then (sd.getD (start_idx + 1) dfltPoint).date
  else if 1 < sd.length then
    anchor + ((sd.getD (sd.length - 1) dfltPoint).date -
              (sd.getD (sd.length - 2) dfltPoint).date)
  else anchor + 60

/-- The `future_dates` list of `generate_future_projections_from_point`:
anchor, then the special first step, then constant steps of
`sd[1].date - sd[0].date`. -/
def fp_future_dates (sd : List PricePoint) (start_idx : Nat) (anchor : Int) :
    Nat → List Int
  | 0 => [anchor]
  | m + 1 =>
    anchor :: fpFirstDate sd start_idx anchor ::
      constStep (fpFirstDate sd start_idx anchor)
        ((sd.getD 1 dfltPoint).date - (sd.getD 0 dfltPoint).date) m

/-- The closes of the reversed history, as scanned by
`generate_future_projections` after `stock_data.reverse()`
(index 0 = most recent point). -/
def revCloses (sd : List PricePoint) : List Rat :=
  sd.reverse.map PricePoint.close

/-- The query pattern of `generate_future_projections`:
`result_string[:6]`, the six most recent movements of the reversed string. -/
def gfpPattern (sd : List PricePoint) : List Char :=
  (movementString (revCloses sd)).take 6

/-- The match start indices replayed by `generate_future_projections`
(the keys of its `index_dict`, in insertion order): all `finditer`
occurrences of `result_string[:6]` in `result_string` except the first,
provided more than 2 occurrences were found. -/
def gfp_matches (sd : List PricePoint) : List Nat :=
  if 2 < (findIter (gfpPattern sd) (movementString (revCloses sd))).length then
    (findIter (gfpPattern sd) (movementString (revCloses sd))).drop 1
  else []

/-- One projection line of `generate_future_projections` for a matched
index `key`: the anchor (most recent) point followed by the replayed
prices, paired with timestamps stepping by `gfpStep interval`. -/
def gfp_line (sd : List PricePoint) (interval : Int) (future_points key : Nat) :
    Projection :=
  let rev := sd.reverse
  let last := rev.headD dfltPoint
  let m := numSteps rev.length key future_points
  { label := ProjLabel.matchDate (rev.getD key dfltPoint).date
    data := List.zipWith (fun d c => ⟨d, c⟩)
      (gfp_future_dates last.date interval m)
      (future_prices (revCloses sd) key last.close future_points)
    patternLength := none }

/-- `generate_future_projections`, embedded over the fetched data
(`get_stock_data` is network I/O; an empty fetch returns `[]` at the guard).
Source defaults: `future_points=10`, `num_lines=3`. -/
def generate_future_projections (sd : List PricePoint) (interval : Int)
    (future_points num_lines : Nat) : List Projection :=
  if sd = [] then []
  else ((gfp_matches sd).take num_lines).map (gfp_line sd interval future_points)

/-- `result_string` of `generate_future_projections_from_point`: the
movements of the last 7 points of `stock_data[:start_idx+1]`. -/
def fpResultString (sd : List PricePoint) (start_idx : Nat) : List Char :=
  let data_subset := sd.take (start_idx + 1)
  movementString ((data_subset.drop (data_subset.length - 7)).map PricePoint.close)

/-- `string_to_match = result_string[-6:]` of
`generate_future_projections_from_point`. -/
def fpPattern (sd : List PricePoint) (start_idx : Nat) : List Char :=
  (fpResultString sd start_idx).drop ((fpResultString sd start_idx).length - 6)

/-- `search_string` of `generate_future_projections_from_point`: the
movements of `stock_data[:len(stock_data)-6]` (indices `1` to
`len(stock_data)-PATTERN_LENGTH-1` of the comprehension). -/
def fpSearchString (sd : List PricePoint) : List Char :=
  movementString ((sd.take (sd.length - 6)).map PricePoint.close)

/-- The match start indices replayed by
`generate_future_projections_from_point` (the keys of its `index_dict`, in
insertion order), including the source's early-return guards. -/
def fp_matches (sd : List PricePoint) (start_idx : Nat) : List Nat :=
  if sd = [] ∨ sd.length ≤ start_idx then []
  else if start_idx < 6 then []
  else if 6 ≤ (fpResultString sd start_idx).length then
    if 1 < (findIter (fpPattern sd start_idx) (fpSearchString sd)).length then
      (findIter (fpPattern sd start_idx) (fpSearchString sd)).filter
        (fun k => decide (k + 6 < start_idx))
    else []
  else []

/-- One projection line of `generate_future_projections_from_point` for a
matched index `key`: the anchor point `stock_data[start_idx]` followed by the
replayed prices, whose source ratios start at `key + PATTERN_LENGTH`. -/
def fp_line (sd : List PricePoint) (start_idx future_points key : Nat) :
    Projection :=
  let start_point := sd.getD start_idx dfltPoint
  let m := numSteps sd.length (key + 6) future_points
  { label := ProjLabel.fromPoint start_idx sd.length
    data := List.zipWith (fun d c => ⟨d, c⟩)
      (fp_future_dates sd start_idx start_point.date m)
      (future_prices (sd.map PricePoint.close) (key + 6) start_point.close
        future_points)
    patternLength := some 6 }

/-- `generate_future_projections_from_point`. The source's early guards
(`not stock_data or start_idx >= len(stock_data)`, `start_idx < 6`) are part
of `fp_matches` and yield `[]` here exactly as in the source.
Source defaults: `future_points=10`, `num_lines=1`. -/
def generate_future_projections_from_point (sd : List PricePoint)
    (start_idx future_points num_lines : Nat) : List Projection :=
  ((fp_matches sd start_idx).take num_lines).map
    (fp_line sd start_idx future_points)

/-- Synthetic history: `n` points spaced 60 minutes apart with strictly
ascending integer closes. -/
def mkAsc (n : Nat) : List PricePoint :=
  (List.range n).map (fun (j : Nat) => ⟨60 * (j : Int), ((100 + j : Nat) : Rat)⟩)

/-- Synthetic history: 20 points with strictly descending closes, so that the
reversed list scanned by `generate_future_projections` ascends 100..119. -/
def sdDesc : List PricePoint :=
  [⟨0, 119⟩, ⟨60, 118⟩, ⟨120, 117⟩, ⟨180, 116⟩, ⟨240, 115⟩, ⟨300, 114⟩,
   ⟨360, 113⟩, ⟨420, 112⟩, ⟨480, 111⟩, ⟨540, 110⟩, ⟨600, 109⟩, ⟨660, 108⟩,
   ⟨720, 107⟩, ⟨780, 106⟩, ⟨840, 105⟩, ⟨900, 104⟩, ⟨960, 103⟩, ⟨1020, 102⟩,
   ⟨1080, 101⟩, ⟨1140, 100⟩]

/-- Synthetic history whose movement string is `UUUUUDUUUUUDDDDDDDD`: the
6-symbol pattern `UUUUUD` occurs in it exactly twice (at movement positions 0
and 6). -/
def sdPat2 : List PricePoint :=
  [⟨0, 100⟩, ⟨60, 101⟩, ⟨120, 102⟩, ⟨180, 103⟩, ⟨240, 104⟩, ⟨300, 105⟩,
   ⟨360, 104⟩, ⟨420, 105⟩, ⟨480, 106⟩, ⟨540, 107⟩, ⟨600, 108⟩, ⟨660, 109⟩,
   ⟨720, 108⟩, ⟨780, 107⟩, ⟨840, 106⟩, ⟨900, 105⟩, ⟨960, 104⟩, ⟨1020, 103⟩,
   ⟨1080, 102⟩, ⟨1140, 101⟩]

/-- Synthetic history like `mkAsc 20` but with an irregular timestamp at
index 14: the spacing 13→14 is 7 minutes while all other spacings are 60. -/
def sdIrr : List PricePoint :=
  (List.range 20).map
    (fun (j : Nat) =>
      ⟨if j = 14 then 787 else 60 * (j : Int), ((100 + j : Nat) : Rat)⟩)

theorem replayFrom_length (closes : List Rat) :
    ∀ (m : Nat) (src : Nat) (p : Rat), (replayFrom closes src p m).length = m := by
  intro m
  induction m with
  | zero => intro src p; rfl
  | succ m ih => intro src p; simp [replayFrom, ih]

theorem future_prices_length (closes : List Rat) (src : Nat) (anchor : Rat)
    (future_points : Nat) :
    (future_prices closes src anchor future_points).length =
      numSteps closes.length src future_points + 1 := by
  simp [future_prices, replayFrom_length]

theorem replayFrom_step (closes : List Rat) :
    ∀ (m : Nat) (src : Nat) (p : Rat) (i : Nat), i < m →
      (p :: replayFrom closes src p m).getD (i + 1) 0 =
        (p :: replayFrom closes src p m).getD i 0 *
          (1 + stepRatio closes (src + i)) := by
  intro m
  induction m with
  | zero => intro src p i hi; omega
  | succ m ih =>
    intro src p i hi
    match i with
    | 0 => simp [replayFrom]
    | j + 1 =>
      have hj : j < m := by omega
      have := ih (src + 1) (p * (1 + stepRatio closes src)) j hj
      simpa [replayFrom, Nat.add_assoc, Nat.add_comm 1 j] using this

theorem future_prices_step (closes : List Rat) (src : Nat) (anchor : Rat)
    (future_points i : Nat)
    (h : i + 1 < (future_prices closes src anchor future_points).length) :
    (future_prices closes src anchor future_points).getD (i + 1) 0 =
      (future_prices closes src anchor future_points).getD i 0 *
        (1 + stepRatio closes (src + i)) := by
  have hlen := future_prices_length closes src anchor future_points
  have hi : i < numSteps closes.length src future_points := by omega
  simpa [future_prices] using
    replayFrom_step closes (numSteps closes.length src future_points) src anchor i hi

theorem constStep_length : ∀ (m : Nat) (d step : Int),
    (constStep d step m).length = m := by
  intro m
  induction m with
  | zero => intro d step; rfl
  | succ m ih => intro d step; simp [constStep, ih]

theorem constStep_delta : ∀ (m : Nat) (d step : Int) (i : Nat),
    i + 1 < (d :: constStep d step m).length →
      (d :: constStep d step m).getD (i + 1) 0 -
        (d :: constStep d step m).getD i 0 = step := by
  intro m
  induction m with
  | zero => intro d step i hi; simp [constStep] at hi
  | succ m ih =>
    intro d step i hi
    match i with
    | 0 => simp [constStep]
    | j + 1 =>
      have hj : j + 1 < ((d + step) :: constStep (d + step) step m).length := by
        simpa [constStep, constStep_length] using hi
      simpa [constStep] using ih (d + step) step j hj

theorem findIterAux_mem (pat s : List Char) :
    ∀ (fuel p q : Nat), q ∈ findIterAux pat s p fuel →
      p ≤ q ∧ occursAt pat s q = true ∧ q + pat.length ≤ s.length := by
  intro fuel
  induction fuel with
  | zero => intro p q h; simp [findIterAux] at h
  | succ fuel ih =>
    intro p q h
    rw [findIterAux] at h
    by_cases hle : p + pat.length ≤ s.length
    · rw [if_pos hle] at h
      by_cases hocc : occursAt pat s p
      · rw [if_pos hocc] at h
        rcases List.mem_cons.mp h with rfl | h2
        · exact ⟨Nat.le_refl _, hocc, hle⟩
        · obtain ⟨h1, h2', h3⟩ := ih _ _ h2
          refine ⟨le_trans (Nat.le_add_right p _) h1, h2', h3⟩
      · rw [if_neg hocc] at h
        obtain ⟨h1, h2', h3⟩ := ih _ _ h
        exact ⟨by omega, h2', h3⟩
    · rw [if_neg hle] at h; simp at h

theorem findIterAux_chain (pat s : List Char) :
    ∀ (fuel p : Nat),
      List.Chain' (fun a b => a + max pat.length 1 ≤ b)
        (findIterAux pat s p fuel) := by
  intro fuel
  induction fuel with
  | zero => intro p; simp [findIterAux]
  | succ fuel ih =>
    intro p
    rw [findIterAux]
    by_cases hle : p + pat.length ≤ s.length
    · rw [if_pos hle]
      by_cases hocc : occursAt pat s p
      · rw [if_pos hocc]
        refine List.chain'_cons'.mpr ⟨?_, ih _⟩
        intro y hy
        exact (findIterAux_mem pat s fuel _ y (List.mem_of_mem_head? hy)).1
      · rw [if_neg hocc]; exact ih _
    · rw [if_neg hle]; simp

theorem findIter_mem (pat s : List Char) (q : Nat) (h : q ∈ findIter pat s) :
    occursAt pat s q = true ∧ q + pat.length ≤ s.length :=
  (findIterAux_mem pat s _ 0 q h).2

theorem findIter_chain (pat s : List Char) :
    List.Chain' (fun a b => a + max pat.length 1 ≤ b) (findIter pat s) :=
  findIterAux_chain pat s _ 0

theorem findIter_sorted (pat s : List Char) :
    List.Chain' (· < ·) (findIter pat s) := by
  refine (findIter_chain pat s).imp ?_
  intro a b h
  have h1 : 1 ≤ max pat.length 1 := le_max_right _ _
  omega

theorem findIter_nodup (pat s : List Char) : (findIter pat s).Nodup :=
  (List.chain'_iff_pairwise.mp (findIter_sorted pat s)).imp
    (fun hlt => Nat.ne_of_lt hlt)

theorem findIter_length_le_occCount (pat s : List Char) :
    (findIter pat s).length ≤ occCount pat s := by
  have hsub : findIter pat s ⊆
      (List.range (s.length + 1)).filter (fun i => occursAt pat s i) := by
    intro q hq
    obtain ⟨hocc, hle⟩ := findIter_mem pat s q hq
    refine List.mem_filter.mpr ⟨List.mem_range.mpr (by omega), hocc⟩
  exact ((findIter_nodup pat s).subperm hsub).length_le

theorem occursAt_zero_of_self (pat : List Char) (q : Nat)
    (hlen : pat.length ≠ 0) (h : occursAt pat pat q = true) : q = 0 := by
  have hq : q + pat.length ≤ pat.length := by
    have heq := eq_of_beq h
    have := congrArg List.length heq
    simp [List.length_take, List.length_drop] at this
    omega
  omega

theorem gfp_matches_ge_six (sd : List PricePoint) (k : Nat)
    (h : k ∈ gfp_matches sd) : 6 ≤ k := by
  by_cases h6 : 6 ≤ (movementString (revCloses sd)).length
  · -- the pattern is a genuine 6-symbol prefix; the scan finds it at 0 first
    have hplen : (gfpPattern sd).length = 6 := by
      simp [gfpPattern, List.length_take]
      omega
    have hocc0 : occursAt (gfpPattern sd) (movementString (revCloses sd)) 0 = true := by
      simp [occursAt, hplen, gfpPattern]
    have hstep : findIter (gfpPattern sd) (movementString (revCloses sd)) =
        0 :: findIterAux (gfpPattern sd) (movementString (revCloses sd)) 6
          (movementString (revCloses sd)).length := by
      rw [findIter, findIterAux]
      rw [if_pos (by omega), if_pos hocc0]
      norm_num [hplen]
    rw [gfp_matches] at h
    simp only [hstep] at h
    by_cases hg : 2 < (0 :: findIterAux (gfpPattern sd)
        (movementString (revCloses sd)) 6 (movementString (revCloses sd)).length).length
    · rw [if_pos hg] at h
      simp only [List.drop_succ_cons, List.drop_zero] at h
      exact (findIterAux_mem _ _ _ 6 k h).1
    · rw [if_neg hg] at h
      simp at h
  · -- too few movements: the pattern is the whole string, only position 0 can match
    push_neg at h6
    have hpat : gfpPattern sd = movementString (revCloses sd) := by
      simp [gfpPattern, List.take_of_length_le (le_of_lt h6)]
    exfalso
    have hall : ∀ q ∈ findIter (gfpPattern sd) (movementString (revCloses sd)),
        q = 0 := by
      intro q hq
      obtain ⟨hocc, hle⟩ := findIter_mem _ _ q hq
      rw [hpat] at hocc
      by_cases hz : (movementString (revCloses sd)).length = 0
      · rw [hpat] at hle; omega
      · exact occursAt_zero_of_self _ q hz hocc
    have hsort : List.Chain' (· < ·)
        (findIter (gfpPattern sd) (movementString (revCloses sd))) :=
      findIter_sorted _ _
    rw [gfp_matches] at h
    rcases hshape : findIter (gfpPattern sd) (movementString (revCloses sd)) with
      - | ⟨a, - | ⟨b, t⟩⟩
    · rw [hshape] at h; simp at h
    · rw [hshape] at h; simp at h
    · have ha : a = 0 := hall a (by rw [hshape]; simp)
      have hb : b = 0 := hall b (by rw [hshape]; simp)
      rw [hshape] at hsort
      have := List.chain'_cons.mp hsort
      omega

theorem fp_matches_nonoverlap (sd : List PricePoint) (start_idx k : Nat)
    (h : k ∈ fp_matches sd start_idx) : k + 6 < start_idx := by
  rw [fp_matches] at h
  split at h
  · simp at h
  · split at h
    · simp at h
    · split at h
      · split at h
        · have := List.mem_filter.mp h
          exact of_decide_eq_true this.2
        · simp at h
      · simp at h

theorem fp_matches_two_found (sd : List PricePoint) (start_idx : Nat)
    (h : fp_matches sd start_idx ≠ []) :
    2 ≤ (findIter (fpPattern sd start_idx) (fpSearchString sd)).length := by
  rw [fp_matches] at h
  split at h
  · simp at h
  · split at h
    · simp at h
    · split at h
      · split at h
        · omega
        · simp at h
      · simp at h

theorem gfp_line_data_length (sd : List PricePoint) (interval : Int)
    (future_points key : Nat) :
    (gfp_line sd interval future_points key).data.length =
      numSteps sd.length key future_points + 1 := by
  simp [gfp_line, gfp_future_dates, constStep_length, future_prices_length,
    revCloses]

theorem fp_future_dates_length (sd : List PricePoint) (start_idx : Nat)
    (anchor : Int) : ∀ m : Nat,
    (fp_future_dates sd start_idx anchor m).length = m + 1
  | 0 => rfl
  | m + 1 => by simp [fp_future_dates, constStep_length]

theorem fp_line_data_length (sd : List PricePoint)
    (start_idx future_points key : Nat) :
    (fp_line sd start_idx future_points key).data.length =
      numSteps sd.length (key + 6) future_points + 1 := by
  simp [fp_line, fp_future_dates_length, future_prices_length]

theorem gfp_line_head_close (sd : List PricePoint) (interval : Int)
    (future_points key : Nat) :
    ((gfp_line sd interval future_points key).data.headD dfltPoint).close =
      (sd.reverse.headD dfltPoint).close := rfl

theorem fp_line_head_close (sd : List PricePoint)
    (start_idx future_points key : Nat) :
    ((fp_line sd start_idx future_points key).data.headD dfltPoint).close =
      (sd.getD start_idx dfltPoint).close := by
  cases h : numSteps sd.length (key + 6) future_points with
  | zero => simp [fp_line, h, fp_future_dates, future_prices]
  | succ t => simp [fp_line, h, fp_future_dates, future_prices]

theorem gfp_future_dates_delta (anchor interval : Int) (m i : Nat)
    (h : i + 1 < (gfp_future_dates anchor interval m).length) :
    (gfp_future_dates anchor interval m).getD (i + 1) 0 -
      (gfp_future_dates anchor interval m).getD i 0 = gfpStep interval :=
  constStep_delta m anchor (gfpStep interval) i h

theorem fp_future_dates_delta (sd : List PricePoint) (start_idx : Nat)
    (anchor : Int) (m j : Nat)
    (h : j + 2 < (fp_future_dates sd start_idx anchor m).length) :
    (fp_future_dates sd start_idx anchor m).getD (j + 2) 0 -
      (fp_future_dates sd start_idx anchor m).getD (j + 1) 0 =
      (sd.getD 1 dfltPoint).date - (sd.getD 0 dfltPoint).date := by
  cases m with
  | zero => simp [fp_future_dates] at h
  | succ t =>
    have hlen : j + 1 < ((fpFirstDate sd start_idx anchor) ::
        constStep (fpFirstDate sd start_idx anchor)
          ((sd.getD 1 dfltPoint).date - (sd.getD 0 dfltPoint).date) t).length := by
      simpa [fp_future_dates, constStep_length] using h
    have hd := constStep_delta t (fpFirstDate sd start_idx anchor)
      ((sd.getD 1 dfltPoint).date - (sd.getD 0 dfltPoint).date) j hlen
    simpa [fp_future_dates] using hd

theorem fp_future_dates_first (sd : List PricePoint) (start_idx : Nat)
    (anchor : Int) (m : Nat) (hm : 1 ≤ m) (hs : start_idx + 1 < sd.length) :
    (fp_future_dates sd start_idx anchor m).getD 1 0 =
      (sd.getD (start_idx + 1) dfltPoint).date := by
  cases m with
  | zero => omega
  | succ t => simp [fp_future_dates, fpFirstDate, hs]

/-- Claim C1 (amended): the replay recurrence
`price[i+1] = price[i] * (1 + (close[j] - close[j+1]) / close[j+1])` holds with
the source index `j` walking forward from `k + 6` (the matched pattern's end)
in `generate_future_projections_from_point` (first conjunct), but in
`generate_future_projections` the source index walks forward from the matched
start index `k` itself, without the `+L` offset (second conjunct); there the
scanned array is the reversed history, so the quotient is a forward
percent-change in chronological time rather than a reversed-offset one. -/
theorem claim_C1_amended :
    (∀ (closes : List Rat) (k : Nat) (anchor : Rat) (future_points i : Nat),
      i + 1 < (future_prices closes (k + 6) anchor future_points).length →
      (future_prices closes (k + 6) anchor future_points).getD (i + 1) 0 =
        (future_prices closes (k + 6) anchor future_points).getD i 0 *
          (1 + (closes.getD (k + 6 + i) 0 - closes.getD (k + 6 + i + 1) 0) /
            closes.getD (k + 6 + i + 1) 0))
    ∧ (∀ (closes : List Rat) (k : Nat) (anchor : Rat) (future_points i : Nat),
      i + 1 < (future_prices closes k anchor future_points).length →
      (future_prices closes k anchor future_points).getD (i + 1) 0 =
        (future_prices closes k anchor future_points).getD i 0 *
          (1 + (closes.getD (k + i) 0 - closes.getD (k + i + 1) 0) /
            closes.getD (k + i + 1) 0)) := by
  constructor
  · intro closes k anchor fp i h
    simpa [stepRatio] using future_prices_step closes (k + 6) anchor fp i h
  · intro closes k anchor fp i h
    simpa [stepRatio] using future_prices_step closes k anchor fp i h

/-- Witness data for the C1 recurrence. -/
def clW : List Rat := [1, 2, 3, 4, 5, 6, 7, 8, 9, 10]

/-- Witness for C1: the recurrence instantiated at a concrete replay. -/
theorem claim_C1_witness :
    (0 + 1 < (future_prices clW (0 + 6) 5 3).length ∧
      (future_prices clW (0 + 6) 5 3).getD (0 + 1) 0 =
        (future_prices clW (0 + 6) 5 3).getD 0 0 *
          (1 + (clW.getD (0 + 6 + 0) 0 - clW.getD (0 + 6 + 0 + 1) 0) /
            clW.getD (0 + 6 + 0 + 1) 0)) ∧
    (0 + 1 < (future_prices clW 2 5 3).length ∧
      (future_prices clW 2 5 3).getD (0 + 1) 0 =
        (future_prices clW 2 5 3).getD 0 0 *
          (1 + (clW.getD (2 + 0) 0 - clW.getD (2 + 0 + 1) 0) /
            clW.getD (2 + 0 + 1) 0)) :=
  ⟨⟨by decide, claim_C1_amended.1 clW 0 5 3 0 (by decide)⟩,
   ⟨by decide, claim_C1_amended.2 clW 2 5 3 0 (by decide)⟩⟩

/-- Counterexample for C1 as stated: on `sdDesc` the first projection line of
`generate_future_projections` replays the match at `k = 6`, and its second
price compounds the ratio taken at source index `6` (= `k`), which differs
from the value the claim's formula prescribes at source index `6 + 6`
(= `k + L`). -/
theorem claim_C1_counterexample :
    gfp_matches sdDesc = [6, 12] ∧
    (((generate_future_projections sdDesc 60 10 3).headD dfltProj).data.getD 1
        dfltPoint).close = 100 * (1 + stepRatio (revCloses sdDesc) 6) ∧
    (100 : Rat) * (1 + stepRatio (revCloses sdDesc) 6) ≠
      100 * (1 + stepRatio (revCloses sdDesc) (6 + 6)) :=
  ⟨by decide, rfl, by norm_num [stepRatio, revCloses, sdDesc]⟩

/-- Claim C2: neither matcher returns a match whose replay window reaches the
query point. In `generate_future_projections_from_point` every returned start
index `k` satisfies `k + patternLength < start_idx` (the source's explicit
filter). In `generate_future_projections` the query occupies positions 0–5 of
the reversed movement string, so the non-overlap condition reads `6 ≤ k`
there: every returned match window and its replay source lie strictly on the
older side of the query window. -/
theorem claim_C2 :
    (∀ (sd : List PricePoint) (start_idx k : Nat),
      k ∈ fp_matches sd start_idx → k + 6 < start_idx)
    ∧ (∀ (sd : List PricePoint) (k : Nat), k ∈ gfp_matches sd → 6 ≤ k) :=
  ⟨fp_matches_nonoverlap, gfp_matches_ge_six⟩

/-- Witness for C2 at concrete matcher outputs. -/
theorem claim_C2_witness :
    (0 ∈ fp_matches sdPat2 12 ∧ 0 + 6 < 12) ∧
    (6 ∈ gfp_matches sdDesc ∧ 6 ≤ 6) :=
  ⟨⟨by decide, claim_C2.1 sdPat2 12 0 (by decide)⟩,
   ⟨by decide, claim_C2.2 sdDesc 6 (by decide)⟩⟩

/-- Claim C3 (amended): `generate_future_projections` indeed returns a
non-empty match set only when its scan finds more than 2 occurrences, which
forces at least 3 occurrence positions of the query pattern in the movement
string (first two conjuncts, exactly the claim for that function). But
`generate_future_projections_from_point` only requires 2 `finditer`
occurrences in its truncated search prefix — and one of those may be the
query's own trailing occurrence — so its match set can be non-empty with only
2 total occurrences of the pattern (third conjunct gives the actual
threshold; see the counterexample). -/
theorem claim_C3_amended :
    (∀ sd : List PricePoint, gfp_matches sd ≠ [] →
      3 ≤ occCount (gfpPattern sd) (movementString (revCloses sd)))
    ∧ (∀ sd : List PricePoint,
      occCount (gfpPattern sd) (movementString (revCloses sd)) < 3 →
      gfp_matches sd = [])
    ∧ (∀ (sd : List PricePoint) (start_idx : Nat),
      fp_matches sd start_idx ≠ [] →
      2 ≤ (findIter (fpPattern sd start_idx) (fpSearchString sd)).length) := by
  refine ⟨?_, ?_, fp_matches_two_found⟩
  · intro sd h
    rw [gfp_matches] at h
    by_cases hg : 2 <
        (findIter (gfpPattern sd) (movementString (revCloses sd))).length
    · have hle := findIter_length_le_occCount (gfpPattern sd)
        (movementString (revCloses sd))
      omega
    · rw [if_neg hg] at h
      simp at h
  · intro sd h
    rw [gfp_matches]
    have hle := findIter_length_le_occCount (gfpPattern sd)
      (movementString (revCloses sd))
    rw [if_neg (by omega)]

/-- Witness for C3 on concrete data: a history where the threshold passes, a
history where it fails, and a `from_point` call with a non-empty match set. -/
theorem claim_C3_witness :
    (gfp_matches sdDesc ≠ [] ∧
      3 ≤ occCount (gfpPattern sdDesc) (movementString (revCloses sdDesc))) ∧
    (occCount (gfpPattern (mkAsc 5)) (movementString (revCloses (mkAsc 5))) < 3 ∧
      gfp_matches (mkAsc 5) = []) ∧
    (fp_matches sdPat2 12 ≠ [] ∧
      2 ≤ (findIter (fpPattern sdPat2 12) (fpSearchString sdPat2)).length) :=
  ⟨⟨by decide, claim_C3_amended.1 sdDesc (by decide)⟩,
   ⟨by decide, claim_C3_amended.2.1 (mkAsc 5) (by decide)⟩,
   ⟨by decide, claim_C3_amended.2.2 sdPat2 12 (by decide)⟩⟩

/-- Counterexample for C3 as stated: on `sdPat2` the query pattern `UUUUUD`
occurs exactly 2 times in the whole movement string (one of them the query's
own trailing occurrence), yet `generate_future_projections_from_point`
returns a non-empty result. -/
theorem claim_C3_counterexample :
    generate_future_projections_from_point sdPat2 12 10 1 ≠ [] ∧
    occCount (fpPattern sdPat2 12)
      (movementString (sdPat2.map PricePoint.close)) = 2 :=
  ⟨by decide, by decide⟩

/-- Claim C4 (amended): the substring scan used by both matchers is Python's
`re.finditer`, which reports non-overlapping occurrences: consecutive
reported start indices differ by at least the pattern length (first
conjunct), and every reported index is a genuine occurrence (second
conjunct). Of two occurrences at adjacent offsets one apart, only the first
is counted and reported. -/
theorem claim_C4_amended :
    (∀ pat s : List Char, pat ≠ [] →
      List.Chain' (fun a b => a + pat.length ≤ b) (findIter pat s))
    ∧ (∀ (pat s : List Char) (q : Nat), q ∈ findIter pat s →
      occursAt pat s q = true) := by
  constructor
  · intro pat s hne
    have h := findIter_chain pat s
    have hmax : max pat.length 1 = pat.length := by
      have hpos : 0 < pat.length := List.length_pos.mpr hne
      omega
    simpa [hmax] using h
  · intro pat s q hq
    exact (findIter_mem pat s q hq).1

/-- Witness for C4 at a concrete scan. -/
theorem claim_C4_witness :
    List.Chain' (fun a b => a + (['U', 'U'] : List Char).length ≤ b)
      (findIter ['U', 'U'] ['U', 'U', 'U', 'U']) ∧
    occursAt ['U', 'U'] ['U', 'U', 'U', 'U'] 2 = true :=
  ⟨claim_C4_amended.1 ['U', 'U'] ['U', 'U', 'U', 'U'] (by decide),
   claim_C4_amended.2 ['U', 'U'] ['U', 'U', 'U', 'U'] 2 (by decide)⟩

/-- Counterexample for C4 as stated: on `mkAsc 20` the movement string is 19
`D`s; the query pattern occurs at the adjacent offsets 6 and 7, but the scan
reports 6 and skips 7, and the matcher's candidate start indices are exactly
`[6, 12]` — the overlapping occurrence at 7 is neither counted nor
reported. -/
theorem claim_C4_counterexample :
    occursAt (gfpPattern (mkAsc 20)) (movementString (revCloses (mkAsc 20))) 6
        = true ∧
    occursAt (gfpPattern (mkAsc 20)) (movementString (revCloses (mkAsc 20))) 7
        = true ∧
    6 ∈ findIter (gfpPattern (mkAsc 20)) (movementString (revCloses (mkAsc 20))) ∧
    7 ∉ findIter (gfpPattern (mkAsc 20)) (movementString (revCloses (mkAsc 20))) ∧
    gfp_matches (mkAsc 20) = [6, 12] :=
  ⟨by decide, by decide, by decide, by decide, by decide⟩

/-- Claim C5: when only `m < future_points` replay steps have source data
before the end of history (`m = n - (key+7)` for the from-point replay, whose
source index starts at `key+6`; `m = n - (key+1)` for the reversed-history
replay of `generate_future_projections`), the returned line has exactly
`m + 1` points (anchor plus `m` replayed points); both functions are total,
so truncation is never an error. -/
theorem claim_C5 :
    ∀ (sd : List PricePoint) (start_idx future_points key : Nat) (interval : Int),
      (sd.length - (key + 7) < future_points →
        (fp_line sd start_idx future_points key).data.length =
          (sd.length - (key + 7)) + 1)
      ∧ (sd.length - (key + 1) < future_points →
        (gfp_line sd interval future_points key).data.length =
          (sd.length - (key + 1)) + 1) := by
  intro sd s fp k interval
  constructor
  · intro h
    rw [fp_line_data_length]
    have hn : numSteps sd.length (k + 6) fp = sd.length - (k + 7) := by
      rw [numSteps]; omega
    omega
  · intro h
    rw [gfp_line_data_length]
    have hn : numSteps sd.length k fp = sd.length - (k + 1) := by
      rw [numSteps]; omega
    omega

/-- Witness for C5: 3 available source steps of 10 requested yield exactly 4
points, for both line builders. -/
theorem claim_C5_witness :
    ((mkAsc 10).length - (0 + 7) < 10 ∧
      (fp_line (mkAsc 10) 8 10 0).data.length =
        ((mkAsc 10).length - (0 + 7)) + 1) ∧
    ((mkAsc 10).length - (6 + 1) < 10 ∧
      (gfp_line (mkAsc 10) 60 10 6).data.length =
        ((mkAsc 10).length - (6 + 1)) + 1) :=
  ⟨⟨by decide, (claim_C5 (mkAsc 10) 8 10 0 60).1 (by decide)⟩,
   ⟨by decide, (claim_C5 (mkAsc 10) 8 10 6 60).2 (by decide)⟩⟩

/-- Claim C6: the first point of every returned projection line carries
exactly the anchor price of the call — the latest (post-reversal head) close
for `generate_future_projections`, and `stock_data[start_idx]`'s close for
`generate_future_projections_from_point`. -/
theorem claim_C6 :
    ∀ (sd : List PricePoint) (interval : Int)
      (start_idx future_points num_lines : Nat) (proj : Projection),
      (proj ∈ generate_future_projections sd interval future_points num_lines →
        (proj.data.headD dfltPoint).close = (sd.reverse.headD dfltPoint).close)
      ∧ (proj ∈ generate_future_projections_from_point sd start_idx
            future_points num_lines →
        (proj.data.headD dfltPoint).close = (sd.getD start_idx dfltPoint).close) := by
  intro sd interval s fp nl proj
  constructor
  · intro h
    rw [generate_future_projections] at h
    split at h
    · simp at h
    · obtain ⟨key, -, rfl⟩ := List.mem_map.mp h
      exact gfp_line_head_close sd interval fp key
  · intro h
    rw [generate_future_projections_from_point] at h
    obtain ⟨key, -, rfl⟩ := List.mem_map.mp h
    exact fp_line_head_close sd s fp key

/-- Witness for C6 on the first returned line of two concrete calls. -/
theorem claim_C6_witness :
    (((generate_future_projections sdDesc 60 10 3).head
        (by decide)).data.headD dfltPoint).close =
      (sdDesc.reverse.headD dfltPoint).close ∧
    (((generate_future_projections_from_point sdPat2 12 10 1).head
        (by decide)).data.headD dfltPoint).close =
      (sdPat2.getD 12 dfltPoint).close :=
  ⟨(claim_C6 sdDesc 60 0 10 3 _).1 (List.head_mem _),
   (claim_C6 sdPat2 60 12 10 1 _).2 (List.head_mem _)⟩

/-- Claim C7: for a price list of length `n ≥ 2` the movement comprehension
used by both functions yields exactly `n - 1` symbols, and symbol `i` is `U`
precisely when `closes[i+1] >= closes[i]` (non-strict, so equal consecutive
closes count as up). -/
theorem claim_C7 :
    ∀ closes : List Rat, 2 ≤ closes.length →
      (movementString closes).length = closes.length - 1 ∧
      ∀ i : Nat, i < closes.length - 1 →
        (movementString closes).getD i 'X' =
          if closes.getD i 0 ≤ closes.getD (i + 1) 0 then 'U' else 'D' := by
  intro closes h2
  constructor
  · simp [movementString]
  · intro i hi
    rw [movementString, List.getD_eq_getElem?_getD]
    simp [List.getElem?_map, List.getElem?_range, hi]

/-- Witness for C7 on a concrete 3-point history. -/
theorem claim_C7_witness :
    (movementString [1, 3, 2]).length = ([1, 3, 2] : List Rat).length - 1 ∧
    (movementString [1, 3, 2]).getD 0 'X' =
      if ([1, 3, 2] : List Rat).getD 0 0 ≤ ([1, 3, 2] : List Rat).getD 1 0
      then 'U' else 'D' :=
  ⟨(claim_C7 [1, 3, 2] (by decide)).1,
   (claim_C7 [1, 3, 2] (by decide)).2 0 (by decide)⟩

/-- Claim C8 (amended): `generate_future_projections` advances successive
timestamps by exactly `gfpStep interval`, which is 1 hour for `interval = 60`,
1 day for `interval = 1440`, and `interval` minutes otherwise — as the claim
states. But `generate_future_projections_from_point` takes no interval at
all: its first projected timestamp is the actual timestamp of the next
historical point after the anchor when one exists, and only subsequent steps
advance by the spacing of the first two history points — so its steps need
not be uniform (see the counterexample). -/
theorem claim_C8_amended :
    (∀ (anchor interval : Int) (m i : Nat),
      i + 1 < (gfp_future_dates anchor interval m).length →
      (gfp_future_dates anchor interval m).getD (i + 1) 0 -
        (gfp_future_dates anchor interval m).getD i 0 = gfpStep interval)
    ∧ gfpStep 60 = 60 ∧ gfpStep 1440 = 1440
    ∧ (∀ interval : Int, interval ≠ 60 → interval ≠ 1440 →
        gfpStep interval = interval)
    ∧ (∀ (sd : List PricePoint) (start_idx : Nat) (anchor : Int) (m j : Nat),
      j + 2 < (fp_future_dates sd start_idx anchor m).length →
      (fp_future_dates sd start_idx anchor m).getD (j + 2) 0 -
        (fp_future_dates sd start_idx anchor m).getD (j + 1) 0 =
        (sd.getD 1 dfltPoint).date - (sd.getD 0 dfltPoint).date)
    ∧ (∀ (sd : List PricePoint) (start_idx : Nat) (anchor : Int) (m : Nat),
      1 ≤ m → start_idx + 1 < sd.length →
      (fp_future_dates sd start_idx anchor m).getD 1 0 =
        (sd.getD (start_idx + 1) dfltPoint).date) := by
  refine ⟨gfp_future_dates_delta, rfl, rfl, ?_, fp_future_dates_delta,
    fp_future_dates_first⟩
  intro interval h60 h1440
  simp [gfpStep, h60, h1440]

/-- Witness for C8 instantiating each guarded conjunct concretely. -/
theorem claim_C8_witness :
    ((gfp_future_dates 0 30 2).getD 1 0 - (gfp_future_dates 0 30 2).getD 0 0 =
      gfpStep 30) ∧
    gfpStep 30 = 30 ∧
    ((fp_future_dates sdIrr 13 780 3).getD 2 0 -
        (fp_future_dates sdIrr 13 780 3).getD 1 0 =
      (sdIrr.getD 1 dfltPoint).date - (sdIrr.getD 0 dfltPoint).date) ∧
    (fp_future_dates sdIrr 13 780 3).getD 1 0 =
      (sdIrr.getD (13 + 1) dfltPoint).date :=
  ⟨claim_C8_amended.1 0 30 2 0 (by decide),
   claim_C8_amended.2.2.2.1 30 (by decide) (by decide),
   claim_C8_amended.2.2.2.2.1 sdIrr 13 780 3 0 (by decide),
   claim_C8_amended.2.2.2.2.2 sdIrr 13 780 3 (by decide) (by decide)⟩

/-- Counterexample for C8 as stated: in a concrete
`generate_future_projections_from_point` call on `sdIrr` the first projected
step advances by 7 minutes while the second advances by 60 minutes — the
steps are not a fixed function of any caller-supplied interval. -/
theorem claim_C8_counterexample :
    (((generate_future_projections_from_point sdIrr 13 10 1).headD
          dfltProj).data.getD 1 dfltPoint).date -
      (((generate_future_projections_from_point sdIrr 13 10 1).headD
          dfltProj).data.getD 0 dfltPoint).date = 7 ∧
    (((generate_future_projections_from_point sdIrr 13 10 1).headD
          dfltProj).data.getD 2 dfltPoint).date -
      (((generate_future_projections_from_point sdIrr 13 10 1).headD
          dfltProj).data.getD 1 dfltPoint).date = 60 ∧
    (7 : Int) ≠ 60 :=
  ⟨by decide, by decide, by decide⟩

/-- Claim C9 (amended): calls with insufficient history (empty data, or a
start index below the 6-point pattern length) and calls with an out-of-bounds
start index all return the empty list — the very same value as the
"no match found" success outcome; no distinct error is raised anywhere in
either function. -/
theorem claim_C9_amended :
    ∀ (sd : List PricePoint) (start_idx future_points num_lines : Nat)
      (interval : Int),
      (sd = [] → generate_future_projections_from_point sd start_idx
        future_points num_lines = [])
      ∧ (sd.length ≤ start_idx → generate_future_projections_from_point sd
        start_idx future_points num_lines = [])
      ∧ (start_idx < 6 → generate_future_projections_from_point sd start_idx
        future_points num_lines = [])
      ∧ (sd = [] → generate_future_projections sd interval future_points
        num_lines = []) := by
  intro sd s fp nl interval
  refine ⟨?_, ?_, ?_, ?_⟩
  · intro h
    rw [generate_future_projections_from_point, fp_matches, if_pos (Or.inl h)]
    simp
  · intro h
    rw [generate_future_projections_from_point, fp_matches, if_pos (Or.inr h)]
    simp
  · intro h
    rw [generate_future_projections_from_point, fp_matches]
    by_cases h1 : sd = [] ∨ sd.length ≤ s
    · rw [if_pos h1]; simp
    · rw [if_neg h1, if_pos h]; simp
  · intro h
    rw [generate_future_projections, if_pos h]

/-- Witness for C9's amended statement at concrete inputs. -/
theorem claim_C9_witness :
    generate_future_projections_from_point [] 7 10 1 = [] ∧
    generate_future_projections_from_point (mkAsc 13) 99 10 1 = [] ∧
    generate_future_projections_from_point (mkAsc 13) 3 10 1 = [] ∧
    generate_future_projections [] 60 10 3 = [] :=
  ⟨(claim_C9_amended [] 7 10 1 60).1 rfl,
   (claim_C9_amended (mkAsc 13) 99 10 1 60).2.1 (by decide),
   (claim_C9_amended (mkAsc 13) 3 10 1 60).2.2.1 (by decide),
   (claim_C9_amended [] 7 10 3 60).2.2.2 rfl⟩

/-- Counterexample for C9 as stated: the inputs the claim says must fail with
`InsufficientDataError` (start index 3 < 6) or `InvalidIndexError` (start
index 99 out of bounds) return the empty list, which is exactly the value of
a valid no-match call (`mkAsc 13` at index 12 has only one occurrence of its
query pattern) — the claimed distinct error outcomes do not exist in the
code. -/
theorem claim_C9_counterexample :
    generate_future_projections_from_point (mkAsc 13) 3 10 1 =
      generate_future_projections_from_point (mkAsc 13) 12 10 1 ∧
    generate_future_projections_from_point (mkAsc 13) 99 10 1 =
      generate_future_projections_from_point (mkAsc 13) 12 10 1 ∧
    generate_future_projections_from_point (mkAsc 13) 12 10 1 = [] ∧
    fp_matches (mkAsc 13) 12 = [] :=
  ⟨by decide, by decide, by decide, by decide⟩

/-- Claim C10: each function returns at most `num_lines` projection lines
(the source defaults are `num_lines = 1` for
`generate_future_projections_from_point` and `num_lines = 3` for
`generate_future_projections`), and the returned lines are exactly the ones
generated from the first `num_lines` matched start indices in scan order —
the rest of the match set is silently dropped. -/
theorem claim_C10 :
    ∀ (sd : List PricePoint) (interval : Int)
      (start_idx future_points num_lines : Nat),
      (generate_future_projections_from_point sd start_idx future_points
          num_lines).length = min num_lines (fp_matches sd start_idx).length
      ∧ generate_future_projections_from_point sd start_idx future_points
          num_lines =
        ((fp_matches sd start_idx).take num_lines).map
          (fp_line sd start_idx future_points)
      ∧ (generate_future_projections sd interval future_points
          num_lines).length ≤ num_lines
      ∧ generate_future_projections sd interval future_points num_lines =
        ((gfp_matches sd).take num_lines).map
          (gfp_line sd interval future_points) := by
  intro sd interval s fp nl
  refine ⟨?_, rfl, ?_, ?_⟩
  · simp [generate_future_projections_from_point]
  · rw [generate_future_projections]
    split
    · simp
    · simp [List.length_map, List.length_take]
  · rw [generate_future_projections]
    split
    · rename_i h
      subst h
      have hm : gfp_matches ([] : List PricePoint) = [] := by decide
      simp [hm]
    · rfl
